import Mathlib

/-!
Verification of the GT3X binary log decoder (`gt3x_parser.py`).

The embedding models byte buffers as `List Nat` (Python `bytes` elements are
0..255; hypotheses record the byte range where a proof needs it).  Pure
functions of the source become Lean functions; the `while` loop of
`_parse_log_bin` becomes a fuel-indexed loop `runDriver` over an abstract
loop body of type `Except Unit (Option _)`, mirroring the source's
`try/except ... break` structure: `Except.error` models an exception raised
by the body (caught, loop breaks), `Except.ok none` models the framer
returning `None` (loop breaks), and `Except.ok (some (samples, next))`
models a successfully framed record.
-/

namespace GT3X

/-- One tri-axial activity reading (`ActivitySample` dataclass). -/
structure ActivitySample where
  x : Int
  y : Int
  z : Int
deriving DecidableEq, Repr

/-- One framed record (`GT3XRecord` dataclass). -/
structure GT3XRecord where
  separator : Nat
  record_type : Nat
  timestamp : Nat
  payload_size : Nat
  payload : List Nat
  checksum : Nat
deriving DecidableEq, Repr

/-- The XOR accumulation loop of `_verify_checksum`:
`calculated = 0; for byte in bs: calculated ^= byte`. -/
def xorBytes (bs : List Nat) : Nat :=
  bs.foldl Nat.xor 0

/-- Python's `(~n) & 0xFF` for a non-negative `n`: the bitwise complement of
the low 8 bits, which for `n ≥ 0` equals `255 - n % 256`. -/
def notMask8 (n : Nat) : Nat :=
  255 - n % 256

/-- `GT3XParser._verify_checksum` (lines 122-128). -/
def verify_checksum (header payload : List Nat) (checksum : Nat) : Bool :=
  notMask8 (xorBytes (header ++ payload)) == checksum

/-- The sign conversion of `_parse_9_byte_samples`:
`if v >= 0x800000: v -= 0x1000000`. -/
def signExtend24 (v : Nat) : Int :=
  if 0x800000 ≤ v then (v : Int) - 0x1000000 else (v : Int)

/-- The 16-bit signed interpretation performed by `struct.unpack('<3h', ...)`
in `_parse_6_byte_samples`. -/
def signExtend16 (v : Nat) : Int :=
  if 0x8000 ≤ v then (v : Int) - 0x10000 else (v : Int)

/-- `GT3XParser._parse_9_byte_samples` (lines 150-166): the loop
`for i in range(0, len(payload), 9)` appends one sample per full 9-byte
chunk (`if i + 9 <= len(payload)`); a trailing chunk shorter than 9 bytes
is skipped.  Each axis is 3 little-endian bytes, sign-extended from bit 23. -/
def parse_9_byte_samples : List Nat → List ActivitySample
  | b0 :: b1 :: b2 :: b3 :: b4 :: b5 :: b6 :: b7 :: b8 :: rest =>
      { x := signExtend24 (b0 + 256 * b1 + 65536 * b2),
        y := signExtend24 (b3 + 256 * b4 + 65536 * b5),
        z := signExtend24 (b6 + 256 * b7 + 65536 * b8) } :: parse_9_byte_samples rest
  | _ => []

/-- `GT3XParser._parse_6_byte_samples` (lines 168-175): one sample per full
6-byte chunk, each axis a little-endian 2-byte signed integer. -/
def parse_6_byte_samples : List Nat → List ActivitySample
  | b0 :: b1 :: b2 :: b3 :: b4 :: b5 :: rest =>
      { x := signExtend16 (b0 + 256 * b1),
        y := signExtend16 (b2 + 256 * b3),
        z := signExtend16 (b4 + 256 * b5) } :: parse_6_byte_samples rest
  | _ => []

/-- `GT3XParser._parse_3_byte_samples` (lines 177-187): one sample per full
3-byte chunk, each axis one raw payload byte. -/
def parse_3_byte_samples : List Nat → List ActivitySample
  | b0 :: b1 :: b2 :: rest =>
      { x := (b0 : Int), y := (b1 : Int), z := (b2 : Int) } :: parse_3_byte_samples rest
  | _ => []

/-- `GT3XParser._parse_activity_payload` (lines 130-148): format selection by
payload length modulo 9, then 6, then 3; otherwise no samples (the source
prints an "Unknown activity payload format" message and returns `[]`). -/
def parse_activity_payload (payload : List Nat) : List ActivitySample :=
  if payload.length % 9 = 0 then parse_9_byte_samples payload
  else if payload.length % 6 = 0 then parse_6_byte_samples payload
  else if payload.length % 3 = 0 then parse_3_byte_samples payload
  else []

/-- `GT3XParser._read_record` (lines 96-120) applied to the suffix
`data[offset:]` of the buffer.  The guard `offset + 8 >= len(data)` becomes
`tail = []` once eight header bytes have been matched; the guard
`offset + 8 + payload_size + 1 > len(data)` becomes
`tail.length < payload_size + 1`.  The checksum verification at line 117
only prints a message on mismatch and does not affect the returned record,
so it does not appear here (it is modelled separately where needed). -/
def readRec : List Nat → Option GT3XRecord
  | b0 :: b1 :: b2 :: b3 :: b4 :: b5 :: b6 :: b7 :: tail =>
      if tail.length = 0 then none
      else if tail.length < (b6 + 256 * b7) + 1 then none
      else some { separator := b0, record_type := b1,
                  timestamp := b2 + 256 * b3 + 65536 * b4 + 16777216 * b5,
                  payload_size := b6 + 256 * b7,
                  payload := tail.take (b6 + 256 * b7),
                  checksum := (tail.drop (b6 + 256 * b7)).headD 0 }
  | _ => none

/-- `GT3XParser._read_record` at an absolute offset into the buffer. -/
def readRecord (data : List Nat) (offset : Nat) : Option GT3XRecord :=
  readRec (data.drop offset)

/-- The samples one framed record contributes in `_parse_log_bin`
(lines 83-86): payloads are decoded only for record types 0 and 26. -/
def recordSamples (rec : GT3XRecord) : List ActivitySample :=
  if rec.record_type = 0 ∨ rec.record_type = 26 then parse_activity_payload rec.payload
  else []

/-- The body of one `while` iteration of `_parse_log_bin` (lines 78-91):
frame a record at `offset`; `none` means the framer returned `None`
(break); otherwise the record's samples and the next offset
`offset + 8 + payload_size + 1`.  The result is wrapped in `Except` so the
exception-handling of the loop (`except ... break`) is part of the loop's
type; the concrete body never raises on a byte buffer. -/
def pyBody (data : List Nat) (offset : Nat) :
    Except Unit (Option (List ActivitySample × Nat)) :=
  Except.ok ((readRecord data offset).map fun rec =>
    (recordSamples rec, offset + 8 + rec.payload_size + 1))

/-- The `while offset < len(data)` loop of `_parse_log_bin` (lines 74-94):
`acc` is the growing `samples` list; an `Except.error` from the body is the
caught exception (print, `break`, return the samples accumulated so far);
`ok none` is the framer's `None` (break); `ok (some _)` extends the samples
and advances the offset.  `fuel` bounds the number of iterations; for the
concrete body any fuel with `len ≤ offset + 9 * fuel` gives the loop's
fixpoint, since each iteration advances the offset by at least 9. -/
def runDriver (len : Nat)
    (body : Nat → Except Unit (Option (List ActivitySample × Nat))) :
    Nat → Nat → List ActivitySample → List ActivitySample
  | 0, _, acc => acc
  | fuel + 1, offset, acc =>
      if offset < len then
        match body offset with
        | Except.error _ => acc
        | Except.ok none => acc
        | Except.ok (some (s, next)) => runDriver len body fuel next (acc ++ s)
      else acc

/-- `GT3XParser._parse_log_bin` (lines 72-94). -/
def parse_log_bin (data : List Nat) : List ActivitySample :=
  runDriver data.length (pyBody data) (data.length + 1) 0 []

/-- `DataQuality` dataclass (lines 215-224). -/
structure DataQuality where
  checksum_failures : Nat
  unknown_record_types : List Nat
  parsing_errors : Nat
deriving DecidableEq, Repr

/-- The data-quality construction of `GT3XReader._extract_metadata`
(lines 294-299): all counters are the literal constants of the source
(`checksum_failures=0`, `unknown_record_types=[]`, `parsing_errors=0`),
whatever the parsed samples were. -/
def extractedDataQuality (_samples : List ActivitySample) : DataQuality :=
  { checksum_failures := 0, unknown_record_types := [], parsing_errors := 0 }

/-! ### Helper lemmas about the fixed-width sample decoders -/

theorem parse9_length : ∀ l : List Nat,
    (parse_9_byte_samples l).length = l.length / 9
  | b0 :: b1 :: b2 :: b3 :: b4 :: b5 :: b6 :: b7 :: b8 :: rest => by
      have ih := parse9_length rest
      simp only [parse_9_byte_samples, List.length_cons, ih]
      omega
  | [] => by simp [parse_9_byte_samples]
  | [_] => by simp [parse_9_byte_samples]
  | [_, _] => by simp [parse_9_byte_samples]
  | [_, _, _] => by simp [parse_9_byte_samples]
  | [_, _, _, _] => by simp [parse_9_byte_samples]
  | [_, _, _, _, _] => by simp [parse_9_byte_samples]
  | [_, _, _, _, _, _] => by simp [parse_9_byte_samples]
  | [_, _, _, _, _, _, _] => by simp [parse_9_byte_samples]
  | [_, _, _, _, _, _, _, _] => by simp [parse_9_byte_samples]

theorem parse6_length : ∀ l : List Nat,
    (parse_6_byte_samples l).length = l.length / 6
  | b0 :: b1 :: b2 :: b3 :: b4 :: b5 :: rest => by
      have ih := parse6_length rest
      simp only [parse_6_byte_samples, List.length_cons, ih]
      omega
  | [] => by simp [parse_6_byte_samples]
  | [_] => by simp [parse_6_byte_samples]
  | [_, _] => by simp [parse_6_byte_samples]
  | [_, _, _] => by simp [parse_6_byte_samples]
  | [_, _, _, _] => by simp [parse_6_byte_samples]
  | [_, _, _, _, _] => by simp [parse_6_byte_samples]

theorem parse3_length : ∀ l : List Nat,
    (parse_3_byte_samples l).length = l.length / 3
  | b0 :: b1 :: b2 :: rest => by
      have ih := parse3_length rest
      simp only [parse_3_byte_samples, List.length_cons, ih]
      omega
  | [] => by simp [parse_3_byte_samples]
  | [_] => by simp [parse_3_byte_samples]
  | [_, _] => by simp [parse_3_byte_samples]

theorem parse3_mem_bounds : ∀ l : List Nat, (∀ b ∈ l, b < 256) →
    ∀ s ∈ parse_3_byte_samples l,
      0 ≤ s.x ∧ s.x ≤ 255 ∧ 0 ≤ s.y ∧ s.y ≤ 255 ∧ 0 ≤ s.z ∧ s.z ≤ 255
  | b0 :: b1 :: b2 :: rest, hb => by
      have ih := parse3_mem_bounds rest (fun b hbm => hb b (by simp [hbm]))
      intro s hs
      simp only [parse_3_byte_samples, List.mem_cons] at hs
      rcases hs with hs | hs
      · have h0 : b0 < 256 := hb b0 (by simp)
        have h1 : b1 < 256 := hb b1 (by simp)
        have h2 : b2 < 256 := hb b2 (by simp)
        subst hs
        refine ⟨?_, ?_, ?_, ?_, ?_, ?_⟩ <;> dsimp only <;> omega
      · exact ih s hs
  | [], _ => by simp [parse_3_byte_samples]
  | [_], _ => by simp [parse_3_byte_samples]
  | [_, _], _ => by simp [parse_3_byte_samples]

/-! ### Helper lemmas about the framer and the stream driver -/

theorem readRec_bound : ∀ (bytes : List Nat) (rec : GT3XRecord),
    readRec bytes = some rec → 9 + rec.payload_size ≤ bytes.length
  | b0 :: b1 :: b2 :: b3 :: b4 :: b5 :: b6 :: b7 :: tail, rec => by
      intro h
      simp only [readRec] at h
      split at h
      · exact Option.noConfusion h
      · split at h
        · exact Option.noConfusion h
        · rename_i h0 h1
          obtain rfl := Option.some.inj h
          simp only [List.length_cons]
          omega
  | [], _ => by intro h; simp [readRec] at h
  | [_], _ => by intro h; simp [readRec] at h
  | [_, _], _ => by intro h; simp [readRec] at h
  | [_, _, _], _ => by intro h; simp [readRec] at h
  | [_, _, _, _], _ => by intro h; simp [readRec] at h
  | [_, _, _, _, _], _ => by intro h; simp [readRec] at h
  | [_, _, _, _, _, _], _ => by intro h; simp [readRec] at h
  | [_, _, _, _, _, _, _], _ => by intro h; simp [readRec] at h

theorem readRecord_bound {data : List Nat} {offset : Nat} {rec : GT3XRecord}
    (h : readRecord data offset = some rec) :
    offset + 9 + rec.payload_size ≤ data.length := by
  have hb := readRec_bound _ _ h
  simp only [List.length_drop] at hb
  omega

theorem pyBody_eq_none {data : List Nat} {offset : Nat}
    (h : readRecord data offset = none) :
    pyBody data offset = Except.ok none := by
  simp [pyBody, h]

theorem pyBody_eq_some {data : List Nat} {offset : Nat} {rec : GT3XRecord}
    (h : readRecord data offset = some rec) :
    pyBody data offset =
      Except.ok (some (recordSamples rec, offset + 8 + rec.payload_size + 1)) := by
  simp [pyBody, h]

theorem runDriver_stop {len : Nat} {body} {fuel offset : Nat}
    {acc : List ActivitySample} (h : ¬ offset < len) :
    runDriver len body fuel offset acc = acc := by
  cases fuel <;> simp [runDriver, h]

theorem runDriver_succ_of_some {len : Nat} {body} {fuel offset : Nat}
    {acc s : List ActivitySample} {next : Nat} (hlt : offset < len)
    (hb : body offset = Except.ok (some (s, next))) :
    runDriver len body (fuel + 1) offset acc = runDriver len body fuel next (acc ++ s) := by
  simp [runDriver, hlt, hb]

theorem runDriver_succ_of_none {len : Nat} {body} {fuel offset : Nat}
    {acc : List ActivitySample} (hlt : offset < len)
    (hb : body offset = Except.ok none) :
    runDriver len body (fuel + 1) offset acc = acc := by
  simp [runDriver, hlt, hb]

theorem runDriver_succ_of_error {len : Nat} {body} {fuel offset : Nat}
    {acc : List ActivitySample} {e : Unit} (hlt : offset < len)
    (hb : body offset = Except.error e) :
    runDriver len body (fuel + 1) offset acc = acc := by
  simp [runDriver, hlt, hb]

theorem runDriver_acc (len : Nat) (body) : ∀ (fuel offset : Nat) (acc : List ActivitySample),
    runDriver len body fuel offset acc = acc ++ runDriver len body fuel offset [] := by
  intro fuel
  induction fuel with
  | zero => intro offset acc; simp [runDriver]
  | succ f ih =>
      intro offset acc
      by_cases hlt : offset < len
      · cases hb : body offset with
        | error e =>
            rw [runDriver_succ_of_error hlt hb, runDriver_succ_of_error hlt hb,
              List.append_nil]
        | ok o =>
            cases o with
            | none =>
                rw [runDriver_succ_of_none hlt hb, runDriver_succ_of_none hlt hb,
                  List.append_nil]
            | some p =>
                obtain ⟨s, next⟩ := p
                rw [runDriver_succ_of_some hlt hb, runDriver_succ_of_some hlt hb,
                  ih next (acc ++ s), ih next ([] ++ s)]
                simp
      · rw [runDriver_stop hlt, runDriver_stop hlt, List.append_nil]

theorem runDriver_pyBody_fuel (data : List Nat) : ∀ (fuel₁ fuel₂ offset : Nat)
    (acc : List ActivitySample),
    data.length ≤ offset + 9 * fuel₁ → data.length ≤ offset + 9 * fuel₂ →
    runDriver data.length (pyBody data) fuel₁ offset acc =
      runDriver data.length (pyBody data) fuel₂ offset acc := by
  intro fuel₁
  induction fuel₁ with
  | zero =>
      intro fuel₂ offset acc h1 h2
      have hns : ¬ offset < data.length := by omega
      rw [runDriver_stop hns, runDriver_stop hns]
  | succ f ih =>
      intro fuel₂ offset acc h1 h2
      by_cases hlt : offset < data.length
      · obtain ⟨g, rfl⟩ : ∃ g, fuel₂ = g + 1 := by
          cases fuel₂
          · omega
          · exact ⟨_, rfl⟩
        cases hr : readRecord data offset with
        | none =>
            rw [runDriver_succ_of_none hlt (pyBody_eq_none hr),
              runDriver_succ_of_none hlt (pyBody_eq_none hr)]
        | some rec =>
            rw [runDriver_succ_of_some hlt (pyBody_eq_some hr),
              runDriver_succ_of_some hlt (pyBody_eq_some hr)]
            exact ih g _ _ (by omega) (by omega)
      · rw [runDriver_stop hlt, runDriver_stop hlt]

theorem runDriver_shift (pre rest : List Nat) : ∀ (fuel off : Nat)
    (acc : List ActivitySample),
    runDriver (pre ++ rest).length (pyBody (pre ++ rest)) fuel (pre.length + off) acc =
      runDriver rest.length (pyBody rest) fuel off acc := by
  intro fuel
  induction fuel with
  | zero => intro off acc; simp [runDriver]
  | succ f ih =>
      intro off acc
      have hread : readRecord (pre ++ rest) (pre.length + off) = readRecord rest off := by
        unfold readRecord
        rw [List.drop_append]
      by_cases hlt : off < rest.length
      · have hlt' : pre.length + off < (pre ++ rest).length := by
          simp only [List.length_append]
          omega
        cases hr : readRecord rest off with
        | none =>
            rw [runDriver_succ_of_none hlt' (pyBody_eq_none (hread.trans hr)),
              runDriver_succ_of_none hlt (pyBody_eq_none hr)]
        | some rec =>
            rw [runDriver_succ_of_some hlt' (pyBody_eq_some (hread.trans hr)),
              runDriver_succ_of_some hlt (pyBody_eq_some hr)]
            have harith : pre.length + off + 8 + rec.payload_size + 1 =
                pre.length + (off + 8 + rec.payload_size + 1) := by omega
            rw [harith, ih]
      · have hlt' : ¬ pre.length + off < (pre ++ rest).length := by
          simp only [List.length_append]
          omega
        rw [runDriver_stop hlt', runDriver_stop hlt]

/-! ### C1: sample count of the payload decoder -/

/-- C1: for an activity-bearing payload of length `L` the decoder produces
exactly `L/9` samples when `L % 9 = 0`, otherwise `L/6` when `L % 6 = 0`,
otherwise `L/3` when `L % 3 = 0`, otherwise zero samples; in particular an
empty payload yields zero samples. -/
theorem activity_payload_sample_count (payload : List Nat) :
    (parse_activity_payload payload).length =
      (if payload.length % 9 = 0 then payload.length / 9
       else if payload.length % 6 = 0 then payload.length / 6
       else if payload.length % 3 = 0 then payload.length / 3
       else 0) ∧
    parse_activity_payload [] = [] := by
  refine ⟨?_, rfl⟩
  by_cases h9 : payload.length % 9 = 0
  · simp [parse_activity_payload, h9, parse9_length]
  · by_cases h6 : payload.length % 6 = 0
    · simp [parse_activity_payload, h9, h6, parse6_length]
    · by_cases h3 : payload.length % 3 = 0
      · simp [parse_activity_payload, h9, h6, h3, parse3_length]
      · simp [parse_activity_payload, h9, h6, h3]

/-! ### C6: the checksum validator -/

set_option maxRecDepth 4096 in
theorem sub_from_255_eq_xor : ∀ x < 256, 255 - x = x ^^^ 255 := by decide

theorem xorBytes_lt_256 (bs : List Nat) (hb : ∀ b ∈ bs, b < 256) :
    xorBytes bs < 256 := by
  have general : ∀ (l : List Nat) (acc : Nat), (∀ b ∈ l, b < 256) → acc < 256 →
      l.foldl Nat.xor acc < 256 := by
    intro l
    induction l with
    | nil => intro acc _ hacc; simpa using hacc
    | cons b t ih =>
        intro acc hl hacc
        simp only [List.foldl_cons]
        exact ih _ (fun x hx => hl x (List.mem_cons_of_mem _ hx))
          (Nat.xor_lt_two_pow (n := 8) hacc (hl b (List.mem_cons_self _ _)))
  exact general bs 0 hb (by norm_num)

/-- C6: the checksum validator accepts a trailing byte `c` iff `c` equals
the bitwise complement of the XOR of every byte of `header ++ payload`,
masked to the low 8 bits (for byte-valued input this is `xor` with 255). -/
theorem checksum_validator_accepts_iff (header payload : List Nat) (c : Nat)
    (hh : ∀ b ∈ header, b < 256) (hp : ∀ b ∈ payload, b < 256) :
    verify_checksum header payload c = true ↔
      c = xorBytes (header ++ payload) ^^^ 255 := by
  have hall : ∀ b ∈ header ++ payload, b < 256 := by
    intro b hb
    rcases List.mem_append.mp hb with h | h
    · exact hh b h
    · exact hp b h
  have hx : xorBytes (header ++ payload) < 256 := xorBytes_lt_256 _ hall
  have hmod : xorBytes (header ++ payload) % 256 = xorBytes (header ++ payload) :=
    Nat.mod_eq_of_lt hx
  simp only [verify_checksum, notMask8, hmod, beq_iff_eq,
    sub_from_255_eq_xor _ hx]
  exact eq_comm

/-- Witness for C6 at a concrete header, payload and checksum byte. -/
theorem checksum_validator_accepts_iff_witness :
    verify_checksum [30, 0, 0, 0, 0, 0, 9, 0] [1, 2, 3] 232 = true ↔
      232 = xorBytes ([30, 0, 0, 0, 0, 0, 9, 0] ++ [1, 2, 3]) ^^^ 255 :=
  checksum_validator_accepts_iff _ _ _ (by decide) (by decide)

/-! ### C7: concrete 9-byte scenario -/

/-- C7 counterexample: the 9-byte payload of the spec's concrete scenario
decodes to exactly 1 sample, not 3. -/
theorem nine_byte_scenario_counterexample :
    (parse_activity_payload
        [0x64, 0xC8, 0x2C, 0x65, 0xC9, 0x2D, 0x66, 0xCA, 0x2E]).length = 1 ∧
    (parse_activity_payload
        [0x64, 0xC8, 0x2C, 0x65, 0xC9, 0x2D, 0x66, 0xCA, 0x2E]).length ≠ 3 := by
  decide

/-- C7 amended: the 9-byte payload decodes to exactly one sample whose axes
are the three little-endian 3-byte groups, sign-extended from bit 23:
`x = 0x2CC864`, `y = 0x2DC965`, `z = 0x2ECA66`. -/
theorem nine_byte_scenario_amended :
    parse_activity_payload [0x64, 0xC8, 0x2C, 0x65, 0xC9, 0x2D, 0x66, 0xCA, 0x2E] =
      [{ x := 0x2CC864, y := 0x2DC965, z := 0x2ECA66 }] := by
  decide

/-! ### C10: 3-byte-per-sample decoder value range -/

/-- C10: when the payload bytes are in byte range, every sample produced by
the 3-byte-per-sample decoder has all three axis values in `[0, 255]`;
moreover that decoder is the one selected when the payload length is a
multiple of 3 but not of 6 or 9. -/
theorem three_byte_samples_byte_range (payload : List Nat)
    (hb : ∀ b ∈ payload, b < 256) :
    (∀ s ∈ parse_3_byte_samples payload,
        0 ≤ s.x ∧ s.x ≤ 255 ∧ 0 ≤ s.y ∧ s.y ≤ 255 ∧ 0 ≤ s.z ∧ s.z ≤ 255) ∧
    (payload.length % 9 ≠ 0 → payload.length % 6 ≠ 0 → payload.length % 3 = 0 →
        parse_activity_payload payload = parse_3_byte_samples payload) := by
  refine ⟨parse3_mem_bounds payload hb, ?_⟩
  intro h9 h6 h3
  simp [parse_activity_payload, h9, h6, h3]

/-- Witness for C10 at a concrete payload. -/
theorem three_byte_samples_byte_range_witness :
    (∀ s ∈ parse_3_byte_samples [7, 0, 255],
        0 ≤ s.x ∧ s.x ≤ 255 ∧ 0 ≤ s.y ∧ s.y ≤ 255 ∧ 0 ≤ s.z ∧ s.z ≤ 255) ∧
    ([7, 0, 255].length % 9 ≠ 0 → [7, 0, 255].length % 6 ≠ 0 →
        [7, 0, 255].length % 3 = 0 →
        parse_activity_payload [7, 0, 255] = parse_3_byte_samples [7, 0, 255]) :=
  three_byte_samples_byte_range [7, 0, 255] (by decide)

/-! ### A synthetic record encoder

The spec's round-trip property is stated through a synthetic encoder that
lays out records exactly as §6 describes (8-byte header, payload, trailing
checksum byte) and packs samples in the 9-bytes-per-sample format. -/

/-- A synthetic record to be encoded: header fields, samples, and the
trailing checksum byte that will be written (which may deliberately differ
from the correct one). -/
structure SynRecord where
  separator : Nat
  record_type : Nat
  timestamp : Nat
  samples : List ActivitySample
  checksum : Nat

/-- Fixed-width little-endian base-256 digits of `n`. -/
def leBytes : Nat → Nat → List Nat
  | 0, _ => []
  | w + 1, n => n % 256 :: leBytes w (n / 256)

/-- 24-bit two's-complement little-endian encoding of one axis value. -/
def encAxis (v : Int) : List Nat :=
  leBytes 3 (v % 16777216).toNat

/-- 9-byte encoding of one sample (three 3-byte axes, x then y then z). -/
def encSample (s : ActivitySample) : List Nat :=
  encAxis s.x ++ encAxis s.y ++ encAxis s.z

def encPayload (r : SynRecord) : List Nat :=
  (r.samples.map encSample).flatten

/-- The 8-byte header of §6: separator, type, 4-byte little-endian
timestamp, 2-byte little-endian payload size. -/
def encHeader (r : SynRecord) : List Nat :=
  [r.separator, r.record_type] ++ leBytes 4 r.timestamp ++
    leBytes 2 (encPayload r).length

def encodeRecord (r : SynRecord) : List Nat :=
  encHeader r ++ encPayload r ++ [r.checksum]

/-- The checksum byte that makes `verify_checksum` succeed. -/
def goodChecksum (r : SynRecord) : Nat :=
  notMask8 (xorBytes (encHeader r ++ encPayload r))

def encodeAll (rs : List SynRecord) : List Nat :=
  (rs.map encodeRecord).flatten

/-- Axis values representable in the 24-bit two's-complement sample format. -/
def axisOK (v : Int) : Prop :=
  -8388608 ≤ v ∧ v ≤ 8388607

def sampleOK (s : ActivitySample) : Prop :=
  axisOK s.x ∧ axisOK s.y ∧ axisOK s.z

/-- A synthetic record whose payload is in a decodable sample format: the
payload size fits the header's 2-byte field and every axis value fits the
24-bit encoding. -/
def validRec (r : SynRecord) : Prop :=
  9 * r.samples.length < 65536 ∧ ∀ s ∈ r.samples, sampleOK s

/-- The samples a record contributes to the driver's output: its own
samples when its type is activity-bearing, nothing otherwise. -/
def contribution (r : SynRecord) : List ActivitySample :=
  if r.record_type = 0 ∨ r.record_type = 26 then r.samples else []

theorem encPayload_flatten_length : ∀ ss : List ActivitySample,
    ((ss.map encSample).flatten).length = 9 * ss.length := by
  intro ss
  induction ss with
  | nil => rfl
  | cons s t ih =>
      simp only [List.map_cons, List.flatten_cons, List.length_append, ih,
        List.length_cons]
      simp [encSample, encAxis, leBytes]
      omega

theorem encPayload_length (r : SynRecord) :
    (encPayload r).length = 9 * r.samples.length :=
  encPayload_flatten_length r.samples

theorem encodeRecord_length (r : SynRecord) :
    (encodeRecord r).length = 9 * r.samples.length + 9 := by
  simp [encodeRecord, encHeader, leBytes, encPayload_length]

theorem signExtend24_encAxis (v : Int) (h1 : -8388608 ≤ v) (h2 : v ≤ 8388607) :
    signExtend24 ((v % 16777216).toNat % 256 +
      256 * ((v % 16777216).toNat / 256 % 256) +
      65536 * ((v % 16777216).toNat / 256 / 256 % 256)) = v := by
  have hm : (0 : Int) ≤ v % 16777216 := Int.emod_nonneg v (by norm_num)
  have hm2 : v % 16777216 < 16777216 := Int.emod_lt_of_pos v (by norm_num)
  set u := (v % 16777216).toNat with hu
  have hult : u < 16777216 := by omega
  have hcombine : u % 256 + 256 * (u / 256 % 256) + 65536 * (u / 256 / 256 % 256) = u := by
    omega
  rw [hcombine]
  unfold signExtend24
  split <;> omega

theorem parse9_encSample (s : ActivitySample) (hs : sampleOK s) (rest : List Nat) :
    parse_9_byte_samples (encSample s ++ rest) = s :: parse_9_byte_samples rest := by
  obtain ⟨⟨hx1, hx2⟩, ⟨hy1, hy2⟩, ⟨hz1, hz2⟩⟩ := hs
  simp only [encSample, encAxis, leBytes, List.cons_append, List.nil_append,
    parse_9_byte_samples]
  rw [signExtend24_encAxis s.x hx1 hx2, signExtend24_encAxis s.y hy1 hy2,
    signExtend24_encAxis s.z hz1 hz2]
  simp

theorem parse9_encoded_samples : ∀ ss : List ActivitySample, (∀ s ∈ ss, sampleOK s) →
    parse_9_byte_samples ((ss.map encSample).flatten) = ss := by
  intro ss
  induction ss with
  | nil => intro _; rfl
  | cons s t ih =>
      intro h
      simp only [List.map_cons, List.flatten_cons]
      rw [parse9_encSample s (h s (by simp)) _, ih (fun x hx => h x (by simp [hx]))]

theorem readRec_encodeRecord (r : SynRecord) (hps : 9 * r.samples.length < 65536)
    (rest : List Nat) :
    readRec (encodeRecord r ++ rest) =
      some { separator := r.separator, record_type := r.record_type,
             timestamp := r.timestamp % 4294967296,
             payload_size := 9 * r.samples.length,
             payload := encPayload r,
             checksum := r.checksum } := by
  have hpl : (encPayload r).length = 9 * r.samples.length := encPayload_length r
  have hshape : encodeRecord r ++ rest =
      r.separator :: r.record_type ::
      (r.timestamp % 256) :: (r.timestamp / 256 % 256) ::
      (r.timestamp / 256 / 256 % 256) :: (r.timestamp / 256 / 256 / 256 % 256) ::
      ((encPayload r).length % 256) :: ((encPayload r).length / 256 % 256) ::
      (encPayload r ++ r.checksum :: rest) := by
    simp [encodeRecord, encHeader, leBytes]
  have hps' : 9 * r.samples.length % 256 + 256 * (9 * r.samples.length / 256 % 256) =
      9 * r.samples.length := by omega
  rw [hshape]
  simp only [readRec, List.length_append, List.length_cons, hpl, hps']
  rw [if_neg (by omega), if_neg (by omega)]
  refine congrArg some ?_
  have htake : (encPayload r ++ r.checksum :: rest).take (9 * r.samples.length) =
      encPayload r := by
    rw [← hpl]
    exact List.take_left _ _
  have hdrop : (encPayload r ++ r.checksum :: rest).drop (9 * r.samples.length) =
      r.checksum :: rest := by
    rw [← hpl]
    exact List.drop_left _ _
  have hts : r.timestamp % 256 + 256 * (r.timestamp / 256 % 256) +
      65536 * (r.timestamp / 256 / 256 % 256) +
      16777216 * (r.timestamp / 256 / 256 / 256 % 256) =
      r.timestamp % 4294967296 := by omega
  simp [htake, hdrop, hts]

theorem parse_activity_encPayload (r : SynRecord)
    (hs : ∀ s ∈ r.samples, sampleOK s) :
    parse_activity_payload (encPayload r) = r.samples := by
  unfold parse_activity_payload
  rw [encPayload_length]
  simp only [Nat.mul_mod_right, if_true]
  exact parse9_encoded_samples r.samples hs

theorem recordSamples_encoded (r : SynRecord) (hs : ∀ s ∈ r.samples, sampleOK s) :
    recordSamples { separator := r.separator, record_type := r.record_type,
                    timestamp := r.timestamp % 4294967296,
                    payload_size := 9 * r.samples.length,
                    payload := encPayload r, checksum := r.checksum } =
      contribution r := by
  by_cases ht : r.record_type = 0 ∨ r.record_type = 26
  · simp only [recordSamples, contribution, ht, if_true]
    exact parse_activity_encPayload r hs
  · simp only [recordSamples, contribution, ht, if_false]

theorem parse_encodeAll_append : ∀ rs : List SynRecord, (∀ r ∈ rs, validRec r) →
    ∀ rest : List Nat,
    parse_log_bin (encodeAll rs ++ rest) =
      (rs.map contribution).flatten ++ parse_log_bin rest := by
  intro rs
  induction rs with
  | nil => intro _ rest; simp [encodeAll]
  | cons r rs ih =>
      intro hv rest
      obtain ⟨hps, hsOK⟩ := hv r (by simp)
      have hvrest : ∀ x ∈ rs, validRec x := fun x hx => hv x (by simp [hx])
      have hbuf : encodeAll (r :: rs) ++ rest = encodeRecord r ++ (encodeAll rs ++ rest) := by
        simp [encodeAll]
      rw [hbuf]
      have hrr : readRecord (encodeRecord r ++ (encodeAll rs ++ rest)) 0 =
          some { separator := r.separator, record_type := r.record_type,
                 timestamp := r.timestamp % 4294967296,
                 payload_size := 9 * r.samples.length,
                 payload := encPayload r, checksum := r.checksum } := by
        unfold readRecord
        rw [List.drop_zero]
        exact readRec_encodeRecord r hps _
      have hlen : (encodeRecord r ++ (encodeAll rs ++ rest)).length =
          (9 * r.samples.length + 9) + (encodeAll rs ++ rest).length := by
        simp [encodeRecord_length]
      have hlt : 0 < (encodeRecord r ++ (encodeAll rs ++ rest)).length := by omega
      unfold parse_log_bin
      rw [runDriver_succ_of_some hlt (pyBody_eq_some hrr)]
      rw [recordSamples_encoded r hsOK]
      dsimp only
      have hnext : 0 + 8 + 9 * r.samples.length + 1 = (encodeRecord r).length + 0 := by
        rw [encodeRecord_length]
        omega
      rw [hnext]
      rw [runDriver_shift (encodeRecord r) (encodeAll rs ++ rest) _ 0 _]
      rw [runDriver_acc]
      rw [runDriver_pyBody_fuel (encodeAll rs ++ rest)
          (encodeRecord r ++ (encodeAll rs ++ rest)).length
          ((encodeAll rs ++ rest).length + 1) 0 [] (by omega) (by omega)]
      rw [show runDriver (encodeAll rs ++ rest).length (pyBody (encodeAll rs ++ rest))
          ((encodeAll rs ++ rest).length + 1) 0 [] = parse_log_bin (encodeAll rs ++ rest)
          from rfl]
      rw [ih hvrest rest]
      simp [List.append_assoc]
      rfl

theorem parse_log_bin_nil : parse_log_bin [] = [] := by
  simp [parse_log_bin, runDriver]

theorem parse_log_bin_of_readRec_none {tail : List Nat} (h : readRec tail = none) :
    parse_log_bin tail = [] := by
  by_cases h0 : 0 < tail.length
  · have hr : readRecord tail 0 = none := by
      unfold readRecord
      rw [List.drop_zero]
      exact h
    exact runDriver_succ_of_none h0 (pyBody_eq_none hr)
  · have : tail = [] := List.eq_nil_of_length_eq_zero (by omega)
    rw [this]
    exact parse_log_bin_nil

/-! ### C4: encode/decode round trip -/

/-- C4: encoding any finite sequence of synthetic records with recognized
activity-bearing types (0 or 26) and decodable payloads into one buffer
(header, payload, trailing checksum per the record layout) and decoding it
reproduces exactly the original sample values in their original order. -/
theorem roundtrip_encode_decode (rs : List SynRecord)
    (hv : ∀ r ∈ rs, validRec r)
    (ht : ∀ r ∈ rs, r.record_type = 0 ∨ r.record_type = 26) :
    parse_log_bin (encodeAll rs) = (rs.map SynRecord.samples).flatten := by
  have h := parse_encodeAll_append rs hv []
  rw [List.append_nil] at h
  rw [h, parse_log_bin_nil, List.append_nil]
  congr 1
  exact List.map_eq_map_iff.mpr fun r hr => by
    unfold contribution
    rw [if_pos (ht r hr)]

/-- Witness for C4 at a one-record sequence with a negative axis value. -/
theorem roundtrip_encode_decode_witness :
    parse_log_bin (encodeAll [⟨30, 0, 5, [⟨1, -2, 3⟩], 0⟩]) =
      (([⟨30, 0, 5, [⟨1, -2, 3⟩], 0⟩] : List SynRecord).map SynRecord.samples).flatten :=
  roundtrip_encode_decode _
    (by
      intro r hr
      simp only [List.mem_singleton] at hr
      subst hr
      refine ⟨by norm_num, ?_⟩
      intro s hs
      simp only [List.mem_singleton] at hs
      subst hs
      exact ⟨⟨by norm_num, by norm_num⟩, ⟨by norm_num, by norm_num⟩,
        ⟨by norm_num, by norm_num⟩⟩)
    (by
      intro r hr
      simp only [List.mem_singleton] at hr
      subst hr
      exact Or.inl rfl)

/-! ### C3: truncated trailing record -/

/-- C3: a buffer of complete records followed by a truncated final record
(too short for the 8-byte header, or shorter than
`8 + payload_size + 1` bytes) parses without error to exactly the samples
of the prior complete records. -/
theorem truncated_final_record (rs : List SynRecord) (tail : List Nat)
    (hv : ∀ r ∈ rs, validRec r) (_hne : tail ≠ [])
    (htr : readRec tail = none) :
    parse_log_bin (encodeAll rs ++ tail) = (rs.map contribution).flatten := by
  rw [parse_encodeAll_append rs hv tail, parse_log_bin_of_readRec_none htr,
    List.append_nil]

/-- Witness for C3: one complete record followed by a 3-byte fragment. -/
theorem truncated_final_record_witness :
    parse_log_bin (encodeAll [⟨30, 0, 5, [⟨1, -2, 3⟩], 0⟩] ++ [1, 2, 3]) =
      (([⟨30, 0, 5, [⟨1, -2, 3⟩], 0⟩] : List SynRecord).map contribution).flatten :=
  truncated_final_record _ _
    (by
      intro r hr
      simp only [List.mem_singleton] at hr
      subst hr
      refine ⟨by norm_num, ?_⟩
      intro s hs
      simp only [List.mem_singleton] at hs
      subst hs
      exact ⟨⟨by norm_num, by norm_num⟩, ⟨by norm_num, by norm_num⟩,
        ⟨by norm_num, by norm_num⟩⟩)
    (by simp)
    (by decide)

/-! ### C2: corrupted checksum -/

/-- C2 counterexample: a concrete one-record buffer whose trailing checksum
byte is corrupted (0 instead of the correct 107) decodes to exactly the
same samples as the intact buffer, the mismatch is detected by the
validator, yet the checksum-failure count of the extracted data-quality
outcome is 0, not 1. -/
theorem checksum_diagnostic_counterexample :
    parse_log_bin ([30, 0, 0, 0, 0, 0, 9, 0] ++
        [100, 200, 44, 101, 201, 45, 102, 202, 46] ++ [0]) =
      parse_log_bin ([30, 0, 0, 0, 0, 0, 9, 0] ++
        [100, 200, 44, 101, 201, 45, 102, 202, 46] ++ [107]) ∧
    verify_checksum [30, 0, 0, 0, 0, 0, 9, 0]
      [100, 200, 44, 101, 201, 45, 102, 202, 46] 0 = false ∧
    verify_checksum [30, 0, 0, 0, 0, 0, 9, 0]
      [100, 200, 44, 101, 201, 45, 102, 202, 46] 107 = true ∧
    (extractedDataQuality (parse_log_bin ([30, 0, 0, 0, 0, 0, 9, 0] ++
        [100, 200, 44, 101, 201, 45, 102, 202, 46] ++ [0]))).checksum_failures ≠ 1 := by
  refine ⟨by decide, by decide, by decide, by decide⟩

/-- C2 amended: a record whose stored checksum differs from the computed
one fails verification (the source prints a diagnostic message) but is
still decoded to exactly the samples it would yield with a correct
checksum; the checksum-failure count of the parse outcome's data quality
is not incremented — it is always 0. -/
theorem corrupted_checksum_behavior (r : SynRecord) (c : Nat)
    (hv : validRec r) (hc : c ≠ goodChecksum r) :
    verify_checksum (encHeader r) (encPayload r) c = false ∧
    verify_checksum (encHeader r) (encPayload r) (goodChecksum r) = true ∧
    parse_log_bin (encodeRecord { r with checksum := c }) =
      parse_log_bin (encodeRecord { r with checksum := goodChecksum r }) ∧
    (extractedDataQuality
        (parse_log_bin (encodeRecord { r with checksum := c }))).checksum_failures = 0 := by
  refine ⟨?_, ?_, ?_, rfl⟩
  · show (notMask8 (xorBytes (encHeader r ++ encPayload r)) == c) = false
    exact beq_eq_false_iff_ne.mpr fun h => hc h.symm
  · show (notMask8 (xorBytes (encHeader r ++ encPayload r)) == goodChecksum r) = true
    exact beq_self_eq_true _
  · have key : ∀ cs : Nat, parse_log_bin (encodeRecord { r with checksum := cs }) =
        contribution { r with checksum := cs } := by
      intro cs
      have hv' : ∀ x ∈ [{ r with checksum := cs }], validRec x := by
        intro x hx
        simp only [List.mem_singleton] at hx
        subst hx
        exact hv
      have h := parse_encodeAll_append [{ r with checksum := cs }] hv' []
      simp only [encodeAll, List.map_cons, List.map_nil, List.flatten_cons,
        List.flatten_nil, List.append_nil] at h
      rw [parse_log_bin_nil, List.append_nil] at h
      exact h
    rw [key c, key (goodChecksum r)]
    rfl

/-- Witness for C2's amended statement at a concrete record. -/
theorem corrupted_checksum_behavior_witness :
    verify_checksum (encHeader ⟨30, 0, 5, [⟨1, -2, 3⟩], 0⟩)
      (encPayload ⟨30, 0, 5, [⟨1, -2, 3⟩], 0⟩) 3 = false ∧
    verify_checksum (encHeader ⟨30, 0, 5, [⟨1, -2, 3⟩], 0⟩)
      (encPayload ⟨30, 0, 5, [⟨1, -2, 3⟩], 0⟩)
      (goodChecksum ⟨30, 0, 5, [⟨1, -2, 3⟩], 0⟩) = true ∧
    parse_log_bin (encodeRecord ⟨30, 0, 5, [⟨1, -2, 3⟩], 3⟩) =
      parse_log_bin (encodeRecord
        ⟨30, 0, 5, [⟨1, -2, 3⟩], goodChecksum ⟨30, 0, 5, [⟨1, -2, 3⟩], 0⟩⟩) ∧
    (extractedDataQuality
        (parse_log_bin (encodeRecord ⟨30, 0, 5, [⟨1, -2, 3⟩], 3⟩))).checksum_failures = 0 :=
  corrupted_checksum_behavior ⟨30, 0, 5, [⟨1, -2, 3⟩], 0⟩ 3
    (⟨by norm_num, by
      intro s hs
      simp only [List.mem_singleton] at hs
      subst hs
      exact ⟨⟨by norm_num, by norm_num⟩, ⟨by norm_num, by norm_num⟩,
        ⟨by norm_num, by norm_num⟩⟩⟩)
    (by decide)

/-! ### C5: non-activity record types are skipped -/

/-- C5: a framed record whose type is neither 0 nor 26 contributes the
empty sample list to the loop body (its payload is never given to the
payload decoder) and the driver advances past it by
`8 + payload_size + 1` bytes with the accumulated samples unchanged. -/
theorem non_activity_record_skipped (data : List Nat) (offset fuel : Nat)
    (acc : List ActivitySample) (rec : GT3XRecord)
    (hlt : offset < data.length) (hr : readRecord data offset = some rec)
    (h0 : rec.record_type ≠ 0) (h26 : rec.record_type ≠ 26) :
    pyBody data offset = Except.ok (some ([], offset + 8 + rec.payload_size + 1)) ∧
    runDriver data.length (pyBody data) (fuel + 1) offset acc =
      runDriver data.length (pyBody data) fuel (offset + 8 + rec.payload_size + 1) acc := by
  have hsam : recordSamples rec = [] := by
    unfold recordSamples
    rw [if_neg]
    rintro (h | h)
    · exact h0 h
    · exact h26 h
  constructor
  · rw [pyBody_eq_some hr, hsam]
  · rw [runDriver_succ_of_some hlt (pyBody_eq_some hr), hsam, List.append_nil]

/-- Witness for C5: a type-3 record with a 1-byte payload. -/
theorem non_activity_record_skipped_witness :
    pyBody [30, 3, 0, 0, 0, 0, 1, 0, 99, 0] 0 =
      Except.ok (some ([], 0 + 8 + 1 + 1)) ∧
    runDriver 10 (pyBody [30, 3, 0, 0, 0, 0, 1, 0, 99, 0]) (0 + 1) 0 [] =
      runDriver 10 (pyBody [30, 3, 0, 0, 0, 0, 1, 0, 99, 0]) 0 (0 + 8 + 1 + 1) [] :=
  non_activity_record_skipped [30, 3, 0, 0, 0, 0, 1, 0, 99, 0] 0 0 []
    ⟨30, 3, 0, 1, [99], 0⟩ (by norm_num) (by decide) (by decide) (by decide)

/-! ### C8: fail-stop on an exception in the loop body -/

/-- C8: if the loop body raises an exception while framing or decoding the
record at `offset`, the driver stops there: the run from `offset` returns
exactly the accumulated samples, and a run that first frames a record at
`prev` (contributing samples `s`) and then hits the failing record returns
exactly `acc ++ s` — the samples decoded before the failure, with no later
record contributing. -/
theorem driver_fail_stop (len : Nat)
    (body : Nat → Except Unit (Option (List ActivitySample × Nat)))
    (fuel offset prev : Nat) (acc s : List ActivitySample) (e : Unit)
    (hlt : offset < len) (hb : body offset = Except.error e)
    (hplt : prev < len) (hpb : body prev = Except.ok (some (s, offset))) :
    runDriver len body (fuel + 1) offset acc = acc ∧
    runDriver len body (fuel + 2) prev acc = acc ++ s := by
  constructor
  · exact runDriver_succ_of_error hlt hb
  · rw [runDriver_succ_of_some hplt hpb]
    exact runDriver_succ_of_error hlt hb

/-- Witness for C8 with a concrete failing body. -/
theorem driver_fail_stop_witness :
    runDriver 20
      (fun o => if o = 0 then Except.ok (some ([⟨1, 2, 3⟩], 9)) else Except.error ())
      (0 + 1) 9 [⟨7, 7, 7⟩] = [⟨7, 7, 7⟩] ∧
    runDriver 20
      (fun o => if o = 0 then Except.ok (some ([⟨1, 2, 3⟩], 9)) else Except.error ())
      (0 + 2) 0 [⟨7, 7, 7⟩] = [⟨7, 7, 7⟩] ++ [⟨1, 2, 3⟩] :=
  driver_fail_stop 20 _ 0 9 0 [⟨7, 7, 7⟩] [⟨1, 2, 3⟩] ()
    (by norm_num) rfl (by norm_num) rfl

/-! ### C9: forward progress and termination of the driver -/

/-- C9: each successfully framed record advances the driver's offset by
exactly `8 + payload_size + 1 ≥ 9` bytes, strictly forward and within the
buffer, and the loop terminates: any fuel of at least `⌈len/9⌉` iterations
yields the driver's fixpoint, the parse result. -/
theorem driver_forward_progress (data : List Nat) (offset fuel : Nat)
    (rec : GT3XRecord) (hr : readRecord data offset = some rec)
    (hfuel : data.length ≤ 9 * fuel) :
    pyBody data offset =
      Except.ok (some (recordSamples rec, offset + 8 + rec.payload_size + 1)) ∧
    offset < offset + 8 + rec.payload_size + 1 ∧
    offset + 9 ≤ offset + 8 + rec.payload_size + 1 ∧
    offset + 8 + rec.payload_size + 1 ≤ data.length ∧
    runDriver data.length (pyBody data) fuel 0 [] = parse_log_bin data := by
  have hb := readRecord_bound hr
  refine ⟨pyBody_eq_some hr, by omega, by omega, by omega, ?_⟩
  unfold parse_log_bin
  exact runDriver_pyBody_fuel data fuel (data.length + 1) 0 [] (by omega) (by omega)

/-- Witness for C9 at a concrete buffer. -/
theorem driver_forward_progress_witness :
    pyBody [30, 3, 0, 0, 0, 0, 1, 0, 99, 0] 0 =
      Except.ok (some ([], 0 + 8 + 1 + 1)) ∧
    0 < 0 + 8 + 1 + 1 ∧
    0 + 9 ≤ 0 + 8 + 1 + 1 ∧
    0 + 8 + 1 + 1 ≤ 10 ∧
    runDriver 10 (pyBody [30, 3, 0, 0, 0, 0, 1, 0, 99, 0]) 2 0 [] =
      parse_log_bin [30, 3, 0, 0, 0, 0, 1, 0, 99, 0] :=
  driver_forward_progress [30, 3, 0, 0, 0, 0, 1, 0, 99, 0] 0 2
    ⟨30, 3, 0, 1, [99], 0⟩ (by decide) (by norm_num)

end GT3X
